import Mathlib

/-!
Shallow embedding of the materialized-view fan-out write path implemented in
src/src/DataStreams/PushingToViewsBlockOutputStream.cpp.

External collaborators (downstream sinks, the select pipeline, the live-view
write path, the wall clock) are modelled as per-view behaviours stored inside
the records.  The thread-local accounting slot current_thread is modelled as a
Nat carried in the writer state.  C++ exceptions are modelled by an explicit
outcome type; a bare rethrow executed with no in-flight exception (the
writePrefix error path) is modelled by a dedicated terminated outcome, since
such a rethrow calls std::terminate instead of delivering any exception.
Every externally visible call is recorded in an effect trace.
-/

namespace PushingToViews

/-- Kind of a captured failure: a DB Exception (which addMessage can annotate)
or any other thrown object (captured by the catch-all block without
annotation). -/
inductive ExcKind
  | db
  | other
deriving DecidableEq

/-- A captured exception: its kind and its message text. -/
structure Exc where
  kind : ExcKind
  msg : String
deriving DecidableEq

/-- One column of a row batch, reduced to what nested-array validation needs:
its name, the nested group it belongs to, and the vector of array sizes it
carries (one entry per row; empty for non-array columns, which then trivially
agree inside their group). -/
structure Column where
  name : String
  group : String
  sizes : List Nat
deriving DecidableEq

/-- A row batch (Block in the source), reduced to its columns. -/
abbrev Block := List Column

/-- Modelled from the spec: Nested::validateArraySizes (NestedUtils) is code of
this repository that is not among the given source files; spec section 3
requires that parallel nested array sizes hold across all sibling array
columns of a nested group.  True when every two columns of the same nested
group carry equal size vectors. -/
def validateArraySizes (b : Block) : Bool :=
  b.all fun c => b.all fun d => (c.group != d.group) || (c.sizes == d.sizes)

/-- The exception thrown by nested-array validation (a DB Exception, hence
subject to addMessage annotation when thrown inside a per-view stage). -/
def shapeMismatchExc : Exc :=
  { kind := ExcKind.db, msg := "Sizes of nested arrays do not match" }

/-- QueryViewsLogElement::ViewStatus values assigned in this translation unit.
The source file never assigns a failed status value; a failed view is
recognised by its captured exception being present. -/
inductive ViewStatus
  | INIT
  | WRITTEN_PREFIX
  | WRITTEN_BLOCK
  | WRITTEN_SUFFIX
deriving DecidableEq

/-- One view record (ViewInfo in the source) together with the behaviour of its
downstream sink and pipeline, which are external collaborators. -/
structure ViewInfo where
  /-- view.table_id.getNameForLogs(), the display name used in annotations. -/
  name : String
  /-- Whether view.query is non-null (materialized views build a pipeline). -/
  hasQuery : Bool
  /-- Blocks produced for one input block by the select / materialize /
  squash / convert pipeline built inside process (external collaborators). -/
  pipeline : Block → List Block
  /-- Behaviour of view.out->writePrefix(). -/
  prefErr : Option Exc
  /-- Behaviour of view.out->write(block). -/
  writeErr : Block → Option Exc
  /-- Behaviour of view.out->writeSuffix(). -/
  suffixErr : Option Exc
  /-- Behaviour of view.out->flush(). -/
  flushErr : Option Exc
  /-- watch.elapsedMilliseconds() for one stage on this view (external clock). -/
  stageCost : Nat
  /-- Identity of view.runtime_stats.thread_status, the per-view accounting
  context installed into the thread-local slot while a stage runs. -/
  threadId : Nat
  /-- view.exception: captured failure of the most recent stage. -/
  exception : Option Exc
  /-- view.runtime_stats.status. -/
  status : ViewStatus
  /-- view.runtime_stats.elapsed_ms. -/
  elapsed_ms : Nat

/-- Externally visible calls made by the writer, in order. -/
inductive Effect
  | liveViewWrite (b : Block)
  | directPrefixCall
  | directWrite (b : Block)
  | directSuffixCall
  | directFlushCall
  | viewPrefixCall (i : Nat)
  | viewWrite (i : Nat) (b : Block)
  | viewSuffixCall (i : Nat)
  | viewFlushCall (i : Nat)
  | logViews (names : List String)
  | logDebugPush
  | logTracePush (i : Nat)
deriving DecidableEq

/-- The settings read by this translation unit from the query context. -/
structure Settings where
  deduplicate_blocks_in_dependent_materialized_views : Bool
  parallel_view_processing : Bool
  max_threads : Nat
  insert_deduplicate : Bool
  min_insert_block_size_rows : Nat
  min_insert_block_size_bytes : Nat
  min_insert_block_size_rows_for_materialized_views : Nat
  min_insert_block_size_bytes_for_materialized_views : Nat
  log_queries : Bool
  log_query_views : Bool
  log_queries_min_query_duration_ms : Nat
deriving DecidableEq

/-- Result of a writer method: normal return, a propagated C++ exception, or
process termination (a bare rethrow executed with no in-flight exception). -/
inductive Outcome
  | ok
  | thrown (e : Exc)
  | terminated
deriving DecidableEq

/-- The fan-out writer state, together with the behaviour of the direct sink
and of the live-view write path (external collaborators). -/
structure Writer where
  /-- Whether the base storage dynamic-casts to StorageLiveView. -/
  isLiveView : Bool
  /-- Whether the direct sink (the output member) exists. -/
  hasOutput : Bool
  /-- some d when replicated_output is non-null; d is what
  replicated_output->lastBlockIsDuplicate() currently reports. -/
  lastBlockIsDuplicate : Option Bool
  settings : Settings
  /-- Behaviour of StorageLiveView::writeIntoLiveView. -/
  liveErr : Block → Option Exc
  /-- Behaviour of output->writePrefix(). -/
  directPrefErr : Option Exc
  /-- Behaviour of output->write(block). -/
  directWriteErr : Block → Option Exc
  /-- Behaviour of output->writeSuffix(). -/
  directSuffixErr : Option Exc
  /-- Behaviour of output->flush(). -/
  directFlushErr : Option Exc
  views : List ViewInfo

/-- The writer state plus the thread-local accounting slot current_thread
observed by the calling thread, modelled as the identity of the installed
thread status. -/
structure St where
  writer : Writer
  curThread : Nat

/-- Exception::addMessage as invoked in the catch blocks of the per-view stage
runners: a DB Exception gets the stage text and the view display name appended
to its message; any other captured object is stored without annotation. -/
def addViewMessage (stage : String) (viewName : String) (e : Exc) : Exc :=
  match e.kind with
  | ExcKind.db => { e with msg := e.msg ++ stage ++ viewName }
  | ExcKind.other => e

/-- The read/validate/write loop of process: every block produced by the
pipeline is validated (Nested::validateArraySizes) and then fed to
view.out->write; the first failure stops the loop.  Returns the failure, if
any, and the downstream write calls that were made. -/
def runViewBlocks (i : Nat) (writeErr : Block → Option Exc) :
    List Block → Option Exc × List Effect
  | [] => (none, [])
  | blk :: rest =>
    if !(validateArraySizes blk) then (some shapeMismatchExc, [])
    else
      match writeErr blk with
      | some e => (some e, [Effect.viewWrite i blk])
      | none =>
        let r := runViewBlocks i writeErr rest
        (r.1, Effect.viewWrite i blk :: r.2)

/-- PushingToViewsBlockOutputStream::process: run the block stage of view
number i on one input block, under the view accounting context, capturing any
failure into the record.  Returns the updated record, the value the
thread-local slot holds after the SCOPE_EXIT restore, and the emitted calls. -/
def process (i : Nat) (b : Block) (cur : Nat) (v : ViewInfo) :
    ViewInfo × Nat × List Effect :=
  let running_thread := cur
  let _slot_during_stage := v.threadId
  let blocks := if v.hasQuery then v.pipeline b else [b]
  let r := runViewBlocks i v.writeErr blocks
  let v1 :=
    match r.1 with
    | none => { v with status := ViewStatus.WRITTEN_BLOCK }
    | some e =>
        { v with exception := some (addViewMessage " while pushing to view " v.name e) }
  let v2 := { v1 with elapsed_ms := v1.elapsed_ms + v.stageCost }
  (v2, running_thread, r.2)

/-- PushingToViewsBlockOutputStream::process_prefix for view number i. -/
def processPrefix (i : Nat) (cur : Nat) (v : ViewInfo) :
    ViewInfo × Nat × List Effect :=
  let running_thread := cur
  let _slot_during_stage := v.threadId
  let v1 :=
    match v.prefErr with
    | none => { v with status := ViewStatus.WRITTEN_PREFIX }
    | some e =>
        { v with exception := some (addViewMessage " while writing prefix to view " v.name e) }
  let v2 := { v1 with elapsed_ms := v1.elapsed_ms + v.stageCost }
  (v2, running_thread, [Effect.viewPrefixCall i])

/-- PushingToViewsBlockOutputStream::process_suffix for view number i; on a
record left without exception a per-view trace line is emitted. -/
def processSuffix (i : Nat) (cur : Nat) (v : ViewInfo) :
    ViewInfo × Nat × List Effect :=
  let running_thread := cur
  let _slot_during_stage := v.threadId
  let v1 :=
    match v.suffixErr with
    | none => { v with status := ViewStatus.WRITTEN_SUFFIX }
    | some e =>
        { v with exception := some (addViewMessage " while writing suffix to view " v.name e) }
  let v2 := { v1 with elapsed_ms := v1.elapsed_ms + v.stageCost }
  let es :=
    if v2.exception.isSome then [Effect.viewSuffixCall i]
    else [Effect.viewSuffixCall i, Effect.logTracePush i]
  (v2, running_thread, es)

/-- The single-threaded loop shared by write and writeSuffix: the stage runs
for each view in record order, and the loop breaks right after the first view
whose record holds an exception.  Returns updated views, the thread slot, the
exception_happened flag and the trace. -/
def seqLoop (f : Nat → Nat → ViewInfo → ViewInfo × Nat × List Effect) :
    Nat → Nat → List ViewInfo → List ViewInfo × Nat × Bool × List Effect
  | cur, _, [] => ([], cur, false, [])
  | cur, i, v :: vs =>
    let p := f i cur v
    if p.1.exception.isSome then (p.1 :: vs, p.2.1, true, p.2.2)
    else
      let rest := seqLoop f p.2.1 (i + 1) vs
      (p.1 :: rest.1, rest.2.1, rest.2.2.1, p.2.2 ++ rest.2.2.2)

/-- The pooled loop of write and writeSuffix, modelled at its schedule-order
interleaving: every scheduled task first checks the shared exception counter
and returns early (leaving its view untouched) once any view has failed;
otherwise it runs the stage and bumps the counter on failure. -/
def parLoopAux (f : Nat → Nat → ViewInfo → ViewInfo × Nat × List Effect) :
    Nat → Nat → Nat → List ViewInfo → List ViewInfo × Nat × Nat × List Effect
  | cur, _, cnt, [] => ([], cur, cnt, [])
  | cur, i, cnt, v :: vs =>
    if cnt != 0 then
      let rest := parLoopAux f cur (i + 1) cnt vs
      (v :: rest.1, rest.2.1, rest.2.2.1, rest.2.2.2)
    else
      let p := f i cur v
      let cnt1 := if p.1.exception.isSome then cnt + 1 else cnt
      let rest := parLoopAux f p.2.1 (i + 1) cnt1 vs
      (p.1 :: rest.1, rest.2.1, rest.2.2.1, p.2.2 ++ rest.2.2.2)

/-- The pooled loop with the exception_happened flag computed from the final
counter value, as in the source. -/
def parLoop (f : Nat → Nat → ViewInfo → ViewInfo × Nat × List Effect)
    (cur i : Nat) (vs : List ViewInfo) :
    List ViewInfo × Nat × Bool × List Effect :=
  let r := parLoopAux f cur i 0 vs
  (r.1, r.2.1, r.2.2.1 != 0, r.2.2.2)

/-- The thread budget used by write and writeSuffix:
min(|views|, parallel_view_processing ? max_threads : 1). -/
def maxThreadsFor (s : Settings) (n : Nat) : Nat :=
  min n (if s.parallel_view_processing then s.max_threads else 1)

/-- PushingToViewsBlockOutputStream::log_query_views, reduced to the list of
view names for which a record is emitted: nothing when the view list is empty
or query/view logging is off; otherwise every view, except those filtered out
by the minimum-duration threshold. -/
def log_query_views (s : Settings) (views : List ViewInfo) : List String :=
  if views.isEmpty || !s.log_queries || !s.log_query_views then []
  else
    (views.filter fun v =>
      if s.log_queries_min_query_duration_ms = 0 then true
      else decide (s.log_queries_min_query_duration_ms < v.elapsed_ms)).map
      fun v => v.name

/-- PushingToViewsBlockOutputStream::check_exceptions_in_views: scan the views
in record order; at the first one holding an exception, flush the view log and
rethrow that exception. -/
def check_exceptions_in_views (s : Settings) (views : List ViewInfo) :
    Outcome × List Effect :=
  match views.find? fun v => v.exception.isSome with
  | none => (Outcome.ok, [])
  | some v =>
    match v.exception with
    | some e => (Outcome.thrown e, [Effect.logViews (log_query_views s views)])
    | none => (Outcome.ok, [])

/-- Steps 4 to 7 of write: the empty-view early return, the duplicate-block
gate, the scheduling decision, the per-view fan-out and the exception check.
Returns the outcome, the updated views, the thread slot and the trace. -/
def viewsPhase (s : Settings) (lastDup : Option Bool) (cur : Nat)
    (views : List ViewInfo) (b : Block) :
    Outcome × List ViewInfo × Nat × List Effect :=
  if views.isEmpty then (Outcome.ok, views, cur, [])
  else if !s.deduplicate_blocks_in_dependent_materialized_views
          && (lastDup == some true) then (Outcome.ok, views, cur, [])
  else
    let stage := fun i cur v => process i b cur v
    let L :=
      if maxThreadsFor s views.length > 1 then parLoop stage cur 0 views
      else seqLoop stage cur 0 views
    if L.2.2.1 then
      let ch := check_exceptions_in_views s L.1
      (ch.1, L.1, L.2.1, L.2.2.2 ++ ch.2)
    else (Outcome.ok, L.1, L.2.1, L.2.2.2)

/-- Steps 2 and 3 of write: the batch goes to the live-view write path when
the base storage is a Live view, otherwise to the direct sink when one
exists.  Returns the failure, if any, and the call made. -/
def writeFront (w : Writer) (b : Block) : Option Exc × List Effect :=
  if w.isLiveView then (w.liveErr b, [Effect.liveViewWrite b])
  else if w.hasOutput then (w.directWriteErr b, [Effect.directWrite b])
  else (none, [])

/-- PushingToViewsBlockOutputStream::write: validate the batch, feed the
live-view path or the direct sink, then run the per-view fan-out. -/
def write (st : St) (b : Block) : Outcome × St × List Effect :=
  let w := st.writer
  if !(validateArraySizes b) then (Outcome.thrown shapeMismatchExc, st, [])
  else
    let front := writeFront w b
    match front.1 with
    | some e => (Outcome.thrown e, st, front.2)
    | none =>
      let ph := viewsPhase w.settings w.lastBlockIsDuplicate st.curThread w.views b
      (ph.1,
        { writer := { w with views := ph.2.1 }, curThread := ph.2.2.1 },
        front.2 ++ ph.2.2.2)

/-- The sequential view loop of writePrefix: run the prefix stage view by view
and stop at the first record holding an exception; the Bool reports whether
the stop (the bare rethrow path) was reached. -/
def pfxLoop : Nat → Nat → List ViewInfo → List ViewInfo × Nat × Bool × List Effect
  | cur, _, [] => ([], cur, false, [])
  | cur, i, v :: vs =>
    let p := processPrefix i cur v
    if p.1.exception.isSome then (p.1 :: vs, p.2.1, true, p.2.2)
    else
      let rest := pfxLoop p.2.1 (i + 1) vs
      (p.1 :: rest.1, rest.2.1, rest.2.2.1, p.2.2 ++ rest.2.2.2)

/-- PushingToViewsBlockOutputStream::writePrefix: the direct sink prefix first
(failures propagate), then the sequential per-view prefix loop; at the first
failed view the view log is flushed and a bare rethrow is executed with no
in-flight exception, which terminates the process. -/
def writePrefix (st : St) : Outcome × St × List Effect :=
  let w := st.writer
  let front : Option Exc × List Effect :=
    if w.hasOutput then (w.directPrefErr, [Effect.directPrefixCall]) else (none, [])
  match front.1 with
  | some e => (Outcome.thrown e, st, front.2)
  | none =>
    let L := pfxLoop st.curThread 0 w.views
    let st1 : St := { writer := { w with views := L.1 }, curThread := L.2.1 }
    if L.2.2.1 then
      (Outcome.terminated, st1,
        front.2 ++ L.2.2.2 ++ [Effect.logViews (log_query_views w.settings L.1)])
    else (Outcome.ok, st1, front.2 ++ L.2.2.2)

/-- The view part of writeSuffix: the scheduling decision, the per-view suffix
fan-out, the exception check, the aggregate debug line and the view-log
flush. -/
def suffixPhase (s : Settings) (cur : Nat) (views : List ViewInfo) :
    Outcome × List ViewInfo × Nat × List Effect :=
  if views.isEmpty then (Outcome.ok, views, cur, [])
  else
    let L :=
      if maxThreadsFor s views.length > 1 then parLoop processSuffix cur 0 views
      else seqLoop processSuffix cur 0 views
    let ch := if L.2.2.1 then check_exceptions_in_views s L.1 else (Outcome.ok, [])
    match ch.1 with
    | Outcome.thrown e => (Outcome.thrown e, L.1, L.2.1, L.2.2.2 ++ ch.2)
    | _ =>
      let dbg := if L.1.length > 1 then [Effect.logDebugPush] else []
      (Outcome.ok, L.1, L.2.1,
        L.2.2.2 ++ ch.2 ++ dbg ++ [Effect.logViews (log_query_views s L.1)])

/-- PushingToViewsBlockOutputStream::writeSuffix: the direct sink suffix first
(failures propagate), then the per-view suffix phase. -/
def writeSuffix (st : St) : Outcome × St × List Effect :=
  let w := st.writer
  let front : Option Exc × List Effect :=
    if w.hasOutput then (w.directSuffixErr, [Effect.directSuffixCall]) else (none, [])
  match front.1 with
  | some e => (Outcome.thrown e, st, front.2)
  | none =>
    let ph := suffixPhase w.settings st.curThread w.views
    (ph.1,
      { writer := { w with views := ph.2.1 }, curThread := ph.2.2.1 },
      front.2 ++ ph.2.2.2)

/-- The view loop of flush: flush each downstream sink in record order; a
failure propagates at once, without any catch. -/
def flushLoop : Nat → List ViewInfo → Option Exc × List Effect
  | _, [] => (none, [])
  | i, v :: vs =>
    match v.flushErr with
    | some e => (some e, [Effect.viewFlushCall i])
    | none =>
      let r := flushLoop (i + 1) vs
      (r.1, Effect.viewFlushCall i :: r.2)

/-- PushingToViewsBlockOutputStream::flush: flush the direct sink, then every
view downstream sink, sequentially, with no error collection. -/
def flush (st : St) : Outcome × St × List Effect :=
  let w := st.writer
  let front : Option Exc × List Effect :=
    if w.hasOutput then (w.directFlushErr, [Effect.directFlushCall]) else (none, [])
  match front.1 with
  | some e => (Outcome.thrown e, st, front.2)
  | none =>
    let r := flushLoop 0 w.views
    match r.1 with
    | some e => (Outcome.thrown e, st, front.2 ++ r.2)
    | none => (Outcome.ok, st, front.2 ++ r.2)

/-- The destructor: snapshot current_thread, clear the view list (each view
owns a ThreadStatus whose destructor reassigns the thread-local slot, modelled
as leaving it detached, encoded 0), then restore the snapshot. -/
def destructor (st : St) : St :=
  let running_thread := st.curThread
  let afterClear : St :=
    { writer := { st.writer with views := [] },
      curThread := if st.writer.views.isEmpty then st.curThread else 0 }
  { afterClear with curThread := running_thread }

/-- disable_deduplication_for_children as computed in the constructor. -/
def disableDeduplicationForChildren (s : Settings)
    (no_destination supportsDeduplication : Bool) : Bool :=
  !s.deduplicate_blocks_in_dependent_materialized_views
    && (!no_destination && supportsDeduplication)

/-- The overrides applied to the cloned insert context settings. -/
def insertContextSettings (s : Settings) (disable : Bool) : Settings :=
  let s1 := if disable then { s with insert_deduplicate := false } else s
  let s2 :=
    if s.min_insert_block_size_rows_for_materialized_views ≠ 0 then
      { s1 with min_insert_block_size_rows :=
          s.min_insert_block_size_rows_for_materialized_views }
    else s1
  if s.min_insert_block_size_bytes_for_materialized_views ≠ 0 then
    { s2 with min_insert_block_size_bytes :=
        s.min_insert_block_size_bytes_for_materialized_views }
  else s2

/-- The context-cloning fragment of the constructor: iff the dependency list
is non-empty, a select context and an insert context are cloned from the
caller settings, the insert context carrying the child overrides. -/
def constructContexts (s : Settings) (no_destination supportsDeduplication : Bool)
    (dependencies : List String) : Option (Settings × Settings) :=
  if dependencies.isEmpty then none
  else
    some (s, insertContextSettings s
      (disableDeduplicationForChildren s no_destination supportsDeduplication))

/-! ## Thread-slot restoration -/

theorem process_cur (i : Nat) (b : Block) (cur : Nat) (v : ViewInfo) :
    (process i b cur v).2.1 = cur := rfl

theorem processPrefix_cur (i : Nat) (cur : Nat) (v : ViewInfo) :
    (processPrefix i cur v).2.1 = cur := rfl

theorem processSuffix_cur (i : Nat) (cur : Nat) (v : ViewInfo) :
    (processSuffix i cur v).2.1 = cur := rfl

theorem seqLoop_cur (f : Nat → Nat → ViewInfo → ViewInfo × Nat × List Effect)
    (hf : ∀ i cur v, (f i cur v).2.1 = cur) :
    ∀ (vs : List ViewInfo) (cur i : Nat), (seqLoop f cur i vs).2.1 = cur := by
  intro vs
  induction vs with
  | nil => intro cur i; rfl
  | cons v vs ih =>
    intro cur i
    simp only [seqLoop]
    split
    · exact hf i cur v
    · dsimp only
      rw [ih, hf]

theorem parLoopAux_cur (f : Nat → Nat → ViewInfo → ViewInfo × Nat × List Effect)
    (hf : ∀ i cur v, (f i cur v).2.1 = cur) :
    ∀ (vs : List ViewInfo) (cur i cnt : Nat), (parLoopAux f cur i cnt vs).2.1 = cur := by
  intro vs
  induction vs with
  | nil => intro cur i cnt; rfl
  | cons v vs ih =>
    intro cur i cnt
    simp only [parLoopAux]
    split
    · dsimp only
      rw [ih]
    · dsimp only
      rw [ih, hf]

theorem parLoop_cur (f : Nat → Nat → ViewInfo → ViewInfo × Nat × List Effect)
    (hf : ∀ i cur v, (f i cur v).2.1 = cur) (cur i : Nat) (vs : List ViewInfo) :
    (parLoop f cur i vs).2.1 = cur := by
  simp only [parLoop]
  exact parLoopAux_cur f hf vs cur i 0

theorem pfxLoop_cur :
    ∀ (vs : List ViewInfo) (cur i : Nat), (pfxLoop cur i vs).2.1 = cur := by
  intro vs
  induction vs with
  | nil => intro cur i; rfl
  | cons v vs ih =>
    intro cur i
    simp only [pfxLoop]
    split
    · exact processPrefix_cur i cur v
    · dsimp only
      rw [ih, processPrefix_cur]

theorem viewsPhase_cur (s : Settings) (lastDup : Option Bool) (cur : Nat)
    (views : List ViewInfo) (b : Block) :
    (viewsPhase s lastDup cur views b).2.2.1 = cur := by
  have hp : ∀ (i c : Nat) (v : ViewInfo), (process i b c v).2.1 = c :=
    fun i c v => process_cur i b c v
  simp only [viewsPhase]
  repeat' split
  all_goals simp [parLoop_cur _ hp, seqLoop_cur _ hp]

theorem suffixPhase_cur (s : Settings) (cur : Nat) (views : List ViewInfo) :
    (suffixPhase s cur views).2.2.1 = cur := by
  simp only [suffixPhase]
  repeat' split
  all_goals simp [parLoop_cur processSuffix processSuffix_cur,
    seqLoop_cur processSuffix processSuffix_cur]

theorem write_cur (st : St) (b : Block) :
    ((write st b).2.1).curThread = st.curThread := by
  simp only [write]
  split
  · rfl
  · split
    · rfl
    · dsimp only
      rw [viewsPhase_cur]

theorem writePrefix_cur (st : St) :
    ((writePrefix st).2.1).curThread = st.curThread := by
  simp only [writePrefix]
  split
  · rfl
  · split
    · dsimp only
      rw [pfxLoop_cur]
    · dsimp only
      rw [pfxLoop_cur]

theorem writeSuffix_cur (st : St) :
    ((writeSuffix st).2.1).curThread = st.curThread := by
  simp only [writeSuffix]
  split
  · rfl
  · dsimp only
    rw [suffixPhase_cur]

theorem flush_cur (st : St) :
    ((flush st).2.1).curThread = st.curThread := by
  simp only [flush]
  split
  · rfl
  · split
    · rfl
    · rfl

theorem destructor_cur (st : St) :
    (destructor st).curThread = st.curThread := rfl

/-- C1: for every writer method (writePrefix, write, writeSuffix, flush) and
every exit path, and for destruction, the thread-accounting slot
(current_thread) observed by the caller immediately after the method equals
the slot observed immediately before it. -/
theorem C1_thread_slot_restored (st : St) (b : Block) :
    ((write st b).2.1).curThread = st.curThread
    ∧ ((writePrefix st).2.1).curThread = st.curThread
    ∧ ((writeSuffix st).2.1).curThread = st.curThread
    ∧ ((flush st).2.1).curThread = st.curThread
    ∧ (destructor st).curThread = st.curThread :=
  ⟨write_cur st b, writePrefix_cur st, writeSuffix_cur st, flush_cur st,
    destructor_cur st⟩

/-! ## Sample states used by witnesses and counterexamples -/

/-- A clean view record with a benign downstream sink. -/
def mkView (nm : String) : ViewInfo :=
  { name := nm, hasQuery := false, pipeline := fun _ => [], prefErr := none,
    writeErr := fun _ => none, suffixErr := none, flushErr := none,
    stageCost := 0, threadId := 5, exception := none,
    status := ViewStatus.INIT, elapsed_ms := 0 }

/-- Settings with view deduplication off, single-threaded processing and view
logging on. -/
def baseSettings : Settings :=
  { deduplicate_blocks_in_dependent_materialized_views := false,
    parallel_view_processing := false, max_threads := 1,
    insert_deduplicate := true, min_insert_block_size_rows := 0,
    min_insert_block_size_bytes := 0,
    min_insert_block_size_rows_for_materialized_views := 0,
    min_insert_block_size_bytes_for_materialized_views := 0,
    log_queries := true, log_query_views := true,
    log_queries_min_query_duration_ms := 0 }

/-- A writer with no direct sink and the given views. -/
def mkWriter (views : List ViewInfo) : Writer :=
  { isLiveView := false, hasOutput := false, lastBlockIsDuplicate := none,
    settings := baseSettings, liveErr := fun _ => none, directPrefErr := none,
    directWriteErr := fun _ => none, directSuffixErr := none,
    directFlushErr := none, views := views }

/-- A DB Exception used as the failure of a misbehaving downstream sink. -/
def excBoom : Exc := { kind := ExcKind.db, msg := "boom" }

/-- A batch with two sibling columns of one nested group carrying different
array sizes. -/
def badBlock : Block :=
  [{ name := "n.a", group := "n", sizes := [1, 2] },
   { name := "n.b", group := "n", sizes := [1] }]

/-! ## C8: shape validation happens before any sink call -/

/-- C8: a batch whose nested-array sibling columns have mismatched sizes makes
write throw the shape-mismatch error before any sink is touched: the writer
state is unchanged and the effect trace is empty, so neither the direct sink
nor any view downstream sink receives a call. -/
theorem C8_shape_validation_first (st : St) (b : Block)
    (h : validateArraySizes b = false) :
    write st b = (Outcome.thrown shapeMismatchExc, st, []) := by
  simp [write, h]

theorem C8_witness :
    validateArraySizes badBlock = false
    ∧ write { writer := mkWriter [mkView "A"], curThread := 7 } badBlock
        = (Outcome.thrown shapeMismatchExc,
            { writer := mkWriter [mkView "A"], curThread := 7 }, []) :=
  ⟨by decide, C8_shape_validation_first _ badBlock (by decide)⟩

/-! ## C6: the duplicate-block gate suppresses all view processing -/

theorem viewsPhase_dedup_gate (s : Settings) (lastDup : Option Bool) (cur : Nat)
    (views : List ViewInfo) (b : Block)
    (hset : s.deduplicate_blocks_in_dependent_materialized_views = false)
    (hdup : lastDup = some true) :
    viewsPhase s lastDup cur views b = (Outcome.ok, views, cur, []) := by
  simp only [viewsPhase, hset, hdup]
  split
  · rfl
  · simp

theorem writeFront_no_viewWrite (w : Writer) (b : Block) (i : Nat) (b2 : Block) :
    Effect.viewWrite i b2 ∉ (writeFront w b).2 := by
  simp only [writeFront]
  split
  · simp
  · split
    · simp
    · simp

/-- C6: when the root replicated sink reports that the last block was a
duplicate and deduplicate_blocks_in_dependent_materialized_views is disabled,
write runs no view block stage for the batch: no view downstream write call
appears in the trace and the view records are unchanged. -/
theorem C6_dedup_gate (st : St) (b : Block)
    (hset : st.writer.settings.deduplicate_blocks_in_dependent_materialized_views = false)
    (hdup : st.writer.lastBlockIsDuplicate = some true) :
    (∀ (i : Nat) (b2 : Block), Effect.viewWrite i b2 ∉ (write st b).2.2)
    ∧ (write st b).2.1.writer.views = st.writer.views := by
  have hph := viewsPhase_dedup_gate st.writer.settings st.writer.lastBlockIsDuplicate
    st.curThread st.writer.views b hset hdup
  simp only [write]
  split
  · simp
  · split
    · exact ⟨fun i b2 => writeFront_no_viewWrite st.writer b i b2, rfl⟩
    · rw [hph]
      refine ⟨fun i b2 => ?_, rfl⟩
      simpa using writeFront_no_viewWrite st.writer b i b2

/-- A writer with a replicated direct sink currently reporting a duplicate
last block. -/
def w6 : Writer :=
  { mkWriter [mkView "A"] with hasOutput := true, lastBlockIsDuplicate := some true }

theorem C6_witness :
    Effect.viewWrite 0 [] ∉ (write { writer := w6, curThread := 3 } []).2.2
    ∧ (write { writer := w6, curThread := 3 } []).2.1.writer.views = w6.views :=
  ⟨(C6_dedup_gate { writer := w6, curThread := 3 } [] rfl rfl).1 0 [],
    (C6_dedup_gate { writer := w6, curThread := 3 } [] rfl rfl).2⟩

/-! ## C2: a Live-view base does not stop view processing -/

/-- A writer whose base storage is a Live view (built with no direct sink, as
in the recursive live-view construction) holding one dependent view. -/
def w2 : Writer := { mkWriter [mkView "A"] with isLiveView := true }

/-- C2 counterexample: with a Live-view base and one view record, write does
not return after handing the batch to the live-view path: the view block
stage still runs and its downstream write is invoked, so the view list is
consulted, contradicting the claim. -/
theorem C2_counterexample :
    Effect.viewWrite 0 [] ∈ (write { writer := w2, curThread := 3 } []).2.2 := by
  decide

/-- The same state with the live-view flag cleared and no direct sink, used to
compare against the ordinary view-processing path. -/
def dropFront (st : St) : St :=
  { st with writer := { st.writer with isLiveView := false, hasOutput := false } }

/-- C2 amended: when the base storage is a Live view, the batch is handed to
the Live-view write path instead of the direct sink, and write then continues
with the per-view fan-out exactly as a writer with no direct destination
would: same outcome, same final view records, and the same trace apart from
the leading live-view write. -/
theorem C2_live_view_continues_fanout (st : St) (b : Block)
    (hl : st.writer.isLiveView = true)
    (hv : validateArraySizes b = true)
    (he : st.writer.liveErr b = none) :
    (write st b).1 = (write (dropFront st) b).1
    ∧ (write st b).2.1.writer.views = (write (dropFront st) b).2.1.writer.views
    ∧ (write st b).2.2 = Effect.liveViewWrite b :: (write (dropFront st) b).2.2 := by
  refine ⟨?_, ?_, ?_⟩ <;> simp [write, writeFront, dropFront, hl, hv, he]

theorem C2_witness :
    (write { writer := w2, curThread := 3 } []).1
        = (write (dropFront { writer := w2, curThread := 3 }) []).1
    ∧ (write { writer := w2, curThread := 3 } []).2.1.writer.views
        = (write (dropFront { writer := w2, curThread := 3 }) []).2.1.writer.views
    ∧ (write { writer := w2, curThread := 3 } []).2.2
        = Effect.liveViewWrite []
            :: (write (dropFront { writer := w2, curThread := 3 }) []).2.2 :=
  C2_live_view_continues_fanout { writer := w2, curThread := 3 } [] rfl rfl rfl

/-! ## C3: a failed view still gets its suffix stage body run -/

theorem parLoopAux_skip (f : Nat → Nat → ViewInfo → ViewInfo × Nat × List Effect) :
    ∀ (vs : List ViewInfo) (cur i cnt : Nat), cnt ≠ 0 →
      parLoopAux f cur i cnt vs = (vs, cur, cnt, []) := by
  intro vs
  induction vs with
  | nil => intro cur i cnt h; rfl
  | cons v vs ih =>
    intro cur i cnt h
    simp only [parLoopAux]
    rw [if_pos (by simpa using h), ih cur (i + 1) cnt h]

theorem seqLoop_failed_head (f : Nat → Nat → ViewInfo → ViewInfo × Nat × List Effect)
    (cur i : Nat) (v : ViewInfo) (vs : List ViewInfo)
    (h : (f i cur v).1.exception.isSome = true) :
    seqLoop f cur i (v :: vs)
      = ((f i cur v).1 :: vs, (f i cur v).2.1, true, (f i cur v).2.2) := by
  simp only [seqLoop]
  rw [if_pos h]

theorem parLoop_failed_head (f : Nat → Nat → ViewInfo → ViewInfo × Nat × List Effect)
    (cur i : Nat) (v : ViewInfo) (vs : List ViewInfo)
    (h : (f i cur v).1.exception.isSome = true) :
    parLoop f cur i (v :: vs)
      = ((f i cur v).1 :: vs, (f i cur v).2.1, true, (f i cur v).2.2) := by
  simp only [parLoop, parLoopAux]
  rw [if_neg (by simp), h, if_pos rfl, parLoopAux_skip f vs _ _ 1 (by simp)]
  simp

theorem suffixPhase_failed_head (s : Settings) (cur : Nat) (v : ViewInfo)
    (vs : List ViewInfo) (e : Exc)
    (hexc : v.exception = some e) (hsuf : v.suffixErr = none) :
    (suffixPhase s cur (v :: vs)).1 = Outcome.thrown e
    ∧ Effect.viewSuffixCall 0 ∈ (suffixPhase s cur (v :: vs)).2.2.2 := by
  have hp1 : (processSuffix 0 cur v).1.exception = some e := by
    simp [processSuffix, hsuf, hexc]
  have hp2 : (processSuffix 0 cur v).2.2 = [Effect.viewSuffixCall 0] := by
    simp [processSuffix, hsuf, hexc]
  have hs : (processSuffix 0 cur v).1.exception.isSome = true := by
    rw [hp1]; rfl
  have hch : ∀ l : List ViewInfo,
      check_exceptions_in_views s ((processSuffix 0 cur v).1 :: l)
        = (Outcome.thrown e,
            [Effect.logViews (log_query_views s ((processSuffix 0 cur v).1 :: l))]) := by
    intro l
    simp [check_exceptions_in_views, List.find?_cons_of_pos _ hs, hp1]
  have hloop : (if maxThreadsFor s (v :: vs).length > 1
      then parLoop processSuffix cur 0 (v :: vs)
      else seqLoop processSuffix cur 0 (v :: vs))
      = ((processSuffix 0 cur v).1 :: vs, (processSuffix 0 cur v).2.1, true,
          (processSuffix 0 cur v).2.2) := by
    split
    · exact parLoop_failed_head processSuffix cur 0 v vs hs
    · exact seqLoop_failed_head processSuffix cur 0 v vs hs
  simp only [suffixPhase]
  rw [if_neg (by simp), hloop]
  simp only [hch]
  simp [hp2]

/-- A view record that failed during an earlier write call. -/
def v3 : ViewInfo := { mkView "A" with exception := some excBoom }

/-- C3 counterexample: a view that failed during a previous write still has
its suffix stage body run by writeSuffix (the downstream writeSuffix call for
view 0 appears in the trace), contradicting the claim that once Failed all
further stage bodies are skipped and only telemetry is emitted. -/
theorem C3_counterexample :
    Effect.viewSuffixCall 0
      ∈ (writeSuffix { writer := mkWriter [v3], curThread := 3 }).2.2 := by
  decide

/-- C3 amended: a captured exception does not make the writer skip stage
bodies: writeSuffix runs the suffix body even for a view that already holds a
captured exception (only the views after it in the sequential loop, or the
tasks queued after the counter bump in the pooled loop, are skipped), and the
retained exception is rethrown afterwards. -/
theorem C3_failed_view_suffix_still_runs (st : St) (v : ViewInfo)
    (vs : List ViewInfo) (e : Exc)
    (hviews : st.writer.views = v :: vs)
    (hexc : v.exception = some e)
    (hsuf : v.suffixErr = none)
    (hout : st.writer.hasOutput = false) :
    Effect.viewSuffixCall 0 ∈ (writeSuffix st).2.2
    ∧ (writeSuffix st).1 = Outcome.thrown e := by
  have h := suffixPhase_failed_head st.writer.settings st.curThread v vs e hexc hsuf
  simp only [writeSuffix, hout, hviews]
  simp only [Bool.false_eq_true, if_false]
  exact ⟨by simpa using h.2, h.1⟩

theorem C3_witness :
    Effect.viewSuffixCall 0
      ∈ (writeSuffix { writer := mkWriter [v3, mkView "B"], curThread := 4 }).2.2
    ∧ (writeSuffix { writer := mkWriter [v3, mkView "B"], curThread := 4 }).1
        = Outcome.thrown excBoom :=
  C3_failed_view_suffix_still_runs
    { writer := mkWriter [v3, mkView "B"], curThread := 4 }
    v3 [mkView "B"] excBoom rfl rfl rfl rfl

/-! ## C4: flush is not best-effort -/

theorem flushLoop_first_error :
    ∀ (vs1 : List ViewInfo) (v : ViewInfo) (vs2 : List ViewInfo) (i : Nat) (e : Exc),
      (∀ u ∈ vs1, u.flushErr = none) → v.flushErr = some e →
      (flushLoop i (vs1 ++ v :: vs2)).1 = some e
      ∧ ∀ j, i + vs1.length < j →
          Effect.viewFlushCall j ∉ (flushLoop i (vs1 ++ v :: vs2)).2 := by
  intro vs1
  induction vs1 with
  | nil =>
    intro v vs2 i e h1 h2
    simp only [List.nil_append, flushLoop, h2]
    refine ⟨by simp, ?_⟩
    intro j hj
    simp only [List.mem_singleton, Effect.viewFlushCall.injEq]
    omega
  | cons u vs1 ih =>
    intro v vs2 i e h1 h2
    have hu : u.flushErr = none := h1 u (by simp)
    have ihh := ih v vs2 (i + 1) e (fun x hx => h1 x (by simp [hx])) h2
    simp only [List.cons_append, flushLoop, hu]
    refine ⟨ihh.1, ?_⟩
    intro j hj
    simp only [List.mem_cons, Effect.viewFlushCall.injEq, not_or]
    constructor
    · omega
    · exact ihh.2 j (by simp at hj; omega)

/-- A view whose downstream flush throws. -/
def v4 : ViewInfo := { mkView "A" with flushErr := some excBoom }

/-- Writer state for the flush counterexample: the failing view first, a clean
view after it. -/
def st4 : St := { writer := mkWriter [v4, mkView "B"], curThread := 3 }

/-- C4 counterexample: with two views whose first downstream flush throws,
flush rethrows at once and the second view flush is never attempted,
contradicting the best-effort claim. -/
theorem C4_counterexample :
    (flush st4).1 = Outcome.thrown excBoom
    ∧ Effect.viewFlushCall 1 ∉ (flush st4).2.2 := by
  exact ⟨by decide, by decide⟩

/-- C4 amended: flush flushes the direct sink and then the view downstream
sinks sequentially, but with no error collection: the first error raised by a
view flush propagates immediately and the flushes of all later views are not
attempted. -/
theorem C4_flush_error_propagates_immediately (st : St)
    (vs1 : List ViewInfo) (v : ViewInfo) (vs2 : List ViewInfo) (e : Exc)
    (hviews : st.writer.views = vs1 ++ v :: vs2)
    (h1 : ∀ u ∈ vs1, u.flushErr = none)
    (h2 : v.flushErr = some e)
    (hout : st.writer.hasOutput = false) :
    (flush st).1 = Outcome.thrown e
    ∧ ∀ j, vs1.length < j → Effect.viewFlushCall j ∉ (flush st).2.2 := by
  have hf := flushLoop_first_error vs1 v vs2 0 e h1 h2
  simp only [flush, hout, hviews]
  simp only [Bool.false_eq_true, if_false]
  rw [hf.1]
  refine ⟨rfl, ?_⟩
  intro j hj
  simpa using hf.2 j (by omega)

/-- Writer state for the flush witness: a clean view, then the failing one,
then another clean view. -/
def st4w : St := { writer := mkWriter [mkView "B", v4, mkView "C"], curThread := 3 }

theorem C4_witness :
    (flush st4w).1 = Outcome.thrown excBoom
    ∧ Effect.viewFlushCall 2 ∉ (flush st4w).2.2 :=
  have h := C4_flush_error_propagates_immediately st4w
    [mkView "B"] v4 [mkView "C"] excBoom rfl (by decide) rfl rfl
  ⟨h.1, h.2 2 (by decide)⟩

/-! ## C5: writePrefix stops at the first failing view and terminates -/

theorem pfxLoop_first_error :
    ∀ (vs1 : List ViewInfo) (v : ViewInfo) (vs2 : List ViewInfo) (cur i : Nat) (e : Exc),
      (∀ u ∈ vs1, u.prefErr = none ∧ u.exception = none) →
      v.prefErr = some e →
      (pfxLoop cur i (vs1 ++ v :: vs2)).2.2.1 = true
      ∧ ∀ j, i + vs1.length < j →
          Effect.viewPrefixCall j ∉ (pfxLoop cur i (vs1 ++ v :: vs2)).2.2.2 := by
  intro vs1
  induction vs1 with
  | nil =>
    intro v vs2 cur i e h1 h2
    have hs : (processPrefix i cur v).1.exception.isSome = true := by
      simp [processPrefix, h2]
    simp only [List.nil_append, pfxLoop]
    rw [if_pos hs]
    refine ⟨rfl, ?_⟩
    intro j hj
    simp only [List.length_nil] at hj
    simp only [processPrefix, List.mem_singleton, Effect.viewPrefixCall.injEq]
    omega
  | cons u vs1 ih =>
    intro v vs2 cur i e h1 h2
    have hu := h1 u (by simp)
    have hne : (processPrefix i cur u).1.exception.isSome = false := by
      simp [processPrefix, hu.1, hu.2]
    have ihh := ih v vs2 cur (i + 1) e (fun x hx => h1 x (by simp [hx])) h2
    simp only [List.cons_append, pfxLoop]
    rw [if_neg (by simp [hne]), processPrefix_cur]
    refine ⟨ihh.1, ?_⟩
    intro j hj
    simp only [List.length_cons] at hj
    have hmem := ihh.2 j (by omega)
    simp only [processPrefix, List.mem_append, List.mem_singleton,
      Effect.viewPrefixCall.injEq, not_or]
    exact ⟨by omega, hmem⟩

/-- A view whose downstream writePrefix throws. -/
def v5 : ViewInfo := { mkView "A" with prefErr := some excBoom }

/-- Writer state for the writePrefix counterexample: the failing view first,
a clean view after it. -/
def st5 : St := { writer := mkWriter [v5, mkView "B"], curThread := 3 }

/-- C5 counterexample: when the first view fails in its prefix stage,
writePrefix does not run the prefix stage of the remaining view and does not
rethrow the captured exception: it executes a bare rethrow with no in-flight
exception, terminating the process, contradicting both parts of the claim. -/
theorem C5_counterexample :
    (writePrefix st5).1 = Outcome.terminated
    ∧ Effect.viewPrefixCall 1 ∉ (writePrefix st5).2.2 := by
  exact ⟨by decide, by decide⟩

/-- C5 amended: writePrefix runs the view prefix stages sequentially in record
order but stops at the first view that captures an exception: the view log is
flushed at that point and a bare rethrow is executed with no in-flight
exception (terminating the process instead of delivering the captured
exception), and no view after the failing one runs its prefix stage. -/
theorem C5_writePrefix_stops_and_terminates (st : St)
    (vs1 : List ViewInfo) (v : ViewInfo) (vs2 : List ViewInfo) (e : Exc)
    (hviews : st.writer.views = vs1 ++ v :: vs2)
    (h1 : ∀ u ∈ vs1, u.prefErr = none ∧ u.exception = none)
    (h2 : v.prefErr = some e)
    (hout : st.writer.hasOutput = false) :
    (writePrefix st).1 = Outcome.terminated
    ∧ (∀ j, vs1.length < j → Effect.viewPrefixCall j ∉ (writePrefix st).2.2)
    ∧ Effect.logViews
        (log_query_views st.writer.settings ((writePrefix st).2.1.writer.views))
        ∈ (writePrefix st).2.2 := by
  have hL := pfxLoop_first_error vs1 v vs2 st.curThread 0 e h1 h2
  simp only [writePrefix, hout, hviews]
  simp only [Bool.false_eq_true, if_false]
  rw [if_pos hL.1]
  refine ⟨rfl, ?_, ?_⟩
  · intro j hj
    simp only [List.nil_append, List.mem_append, List.mem_singleton, not_or]
    refine ⟨hL.2 j (by omega), by simp⟩
  · simp

/-- Writer state for the writePrefix witness: a clean view, then the failing
one, then another clean view. -/
def st5w : St := { writer := mkWriter [mkView "B", v5, mkView "C"], curThread := 3 }

theorem C5_witness :
    (writePrefix st5w).1 = Outcome.terminated
    ∧ Effect.viewPrefixCall 2 ∉ (writePrefix st5w).2.2
    ∧ Effect.logViews
        (log_query_views st5w.writer.settings ((writePrefix st5w).2.1.writer.views))
        ∈ (writePrefix st5w).2.2 :=
  have h := C5_writePrefix_stops_and_terminates st5w
    [mkView "B"] v5 [mkView "C"] excBoom rfl (by decide) rfl rfl
  ⟨h.1, h.2.1 2 (by decide), h.2.2⟩

/-! ## C9: context cloning and the child deduplication override -/

theorem insertContextSettings_dedup (s : Settings) (d : Bool) (hd : d = true) :
    (insertContextSettings s d).insert_deduplicate = false := by
  subst hd
  simp only [insertContextSettings]
  repeat' split
  all_goals simp_all

theorem insertContextSettings_rows (s : Settings) (d : Bool)
    (h : s.min_insert_block_size_rows_for_materialized_views ≠ 0) :
    (insertContextSettings s d).min_insert_block_size_rows
      = s.min_insert_block_size_rows_for_materialized_views := by
  simp only [insertContextSettings]
  repeat' split
  all_goals simp_all

theorem insertContextSettings_bytes (s : Settings) (d : Bool)
    (h : s.min_insert_block_size_bytes_for_materialized_views ≠ 0) :
    (insertContextSettings s d).min_insert_block_size_bytes
      = s.min_insert_block_size_bytes_for_materialized_views := by
  simp only [insertContextSettings]
  repeat' split
  all_goals simp_all

/-- C9 counterexample settings: the caller has insert_deduplicate enabled and
has not requested that dependents deduplicate. -/
def cs9 : Settings := baseSettings

/-- C9 counterexample: constructed with no_destination = true and a root
storage that supports deduplication, with one dependent and the caller not
requesting dependent deduplication, the cloned insert context keeps
insert_deduplicate = true: the claim that the setting is set to false whenever
the root supports server-side deduplication and the caller has not requested
dependent deduplication is false (the code additionally requires a direct
destination). -/
theorem C9_counterexample :
    cs9.deduplicate_blocks_in_dependent_materialized_views = false
    ∧ cs9.insert_deduplicate = true
    ∧ (constructContexts cs9 true true ["d"]).map (fun p => p.2.insert_deduplicate)
        = some true := by
  exact ⟨rfl, rfl, by decide⟩

/-- C9 amended: the writer clones a select and an insert context iff at least
one dependent exists; in the insert context, if the writer has a direct
destination (no_destination is false), the root storage supports server-side
deduplication and the caller has not explicitly requested that dependents
deduplicate, insert_deduplicate is set to false; nonzero caller-specified
materialized-view minimum block sizes become the ordinary minimum-block-size
settings; the select context is an unmodified clone. -/
theorem C9_context_cloning (s : Settings) (nd sd : Bool) (deps : List String) :
    ((constructContexts s nd sd deps).isSome ↔ deps ≠ [])
    ∧ ∀ sel ins, constructContexts s nd sd deps = some (sel, ins) →
        (nd = false → sd = true →
          s.deduplicate_blocks_in_dependent_materialized_views = false →
          ins.insert_deduplicate = false)
        ∧ (s.min_insert_block_size_rows_for_materialized_views ≠ 0 →
            ins.min_insert_block_size_rows
              = s.min_insert_block_size_rows_for_materialized_views)
        ∧ (s.min_insert_block_size_bytes_for_materialized_views ≠ 0 →
            ins.min_insert_block_size_bytes
              = s.min_insert_block_size_bytes_for_materialized_views)
        ∧ sel = s := by
  by_cases hd : deps.isEmpty
  · have hnil : deps = [] := by simpa using hd
    subst hnil
    refine ⟨by simp [constructContexts], ?_⟩
    intro sel ins h
    simp [constructContexts] at h
  · have hne : deps ≠ [] := by
      intro hnil
      subst hnil
      simp at hd
    refine ⟨by simp [constructContexts, hd, hne], ?_⟩
    intro sel ins h
    simp only [constructContexts, hd, if_false, Bool.false_eq_true] at h
    have hsel : sel = s := by
      have := congrArg Prod.fst (Option.some.inj h)
      exact this.symm
    have hins : ins = insertContextSettings s
        (disableDeduplicationForChildren s nd sd) := by
      have := congrArg Prod.snd (Option.some.inj h)
      exact this.symm
    subst hins
    refine ⟨?_, ?_, ?_, hsel⟩
    · intro hnd hsd hset
      refine insertContextSettings_dedup s _ ?_
      simp [disableDeduplicationForChildren, hnd, hsd, hset]
    · intro hr
      exact insertContextSettings_rows s _ hr
    · intro hb
      exact insertContextSettings_bytes s _ hb

/-- C9 witness settings: nonzero materialized-view minimum block sizes. -/
def cs9w : Settings :=
  { baseSettings with
      min_insert_block_size_rows_for_materialized_views := 7
      min_insert_block_size_bytes_for_materialized_views := 9 }

theorem C9_witness :
    (constructContexts cs9w false true ["d"]).isSome = true
    ∧ (insertContextSettings cs9w
        (disableDeduplicationForChildren cs9w false true)).insert_deduplicate = false
    ∧ (insertContextSettings cs9w
        (disableDeduplicationForChildren cs9w false true)).min_insert_block_size_rows
        = cs9w.min_insert_block_size_rows_for_materialized_views
    ∧ (insertContextSettings cs9w
        (disableDeduplicationForChildren cs9w false true)).min_insert_block_size_bytes
        = cs9w.min_insert_block_size_bytes_for_materialized_views :=
  have h := C9_context_cloning cs9w false true ["d"]
  have h2 := h.2 cs9w (insertContextSettings cs9w
    (disableDeduplicationForChildren cs9w false true)) rfl
  ⟨h.1.mpr (by decide), h2.1 rfl rfl rfl, h2.2.1 (by decide), h2.2.2.1 (by decide)⟩

/-! ## C10: single-threaded mode stops at the first failing view -/

/-- Whether the view record at index i holds a captured exception. -/
def failedAt (l : List ViewInfo) (i : Nat) : Bool :=
  (l[i]?.map fun v => v.exception.isSome).getD false

theorem failedAt_cons_succ (a : ViewInfo) (l : List ViewInfo) (n : Nat) :
    failedAt (a :: l) (n + 1) = failedAt l n := by
  simp [failedAt]

theorem failedAt_cons_zero (a : ViewInfo) (l : List ViewInfo) :
    failedAt (a :: l) 0 = a.exception.isSome := by
  simp [failedAt]

theorem seqLoop_frame (f : Nat → Nat → ViewInfo → ViewInfo × Nat × List Effect) :
    ∀ (vs : List ViewInfo) (cur i0 i j : Nat), i < j →
      failedAt (seqLoop f cur i0 vs).1 i = true →
      ((seqLoop f cur i0 vs).1)[j]? = vs[j]? := by
  intro vs
  induction vs with
  | nil => intro cur i0 i j hij hfail; rfl
  | cons v vs ih =>
    intro cur i0 i j hij hfail
    simp only [seqLoop] at hfail ⊢
    by_cases hp : (f i0 cur v).1.exception.isSome = true
    · rw [if_pos hp] at hfail ⊢
      cases j with
      | zero => omega
      | succ m => simp
    · rw [if_neg hp] at hfail ⊢
      cases i with
      | zero =>
        rw [failedAt_cons_zero] at hfail
        exact absurd hfail hp
      | succ n =>
        cases j with
        | zero => omega
        | succ m =>
          rw [failedAt_cons_succ] at hfail
          simp only [List.getElem?_cons_succ]
          exact ih (f i0 cur v).2.1 (i0 + 1) n m (by omega) hfail

theorem viewsPhase_frame (s : Settings) (lastDup : Option Bool) (cur : Nat)
    (views : List ViewInfo) (b : Block)
    (hpar : s.parallel_view_processing = false) :
    ∀ i j, i < j → failedAt (viewsPhase s lastDup cur views b).2.1 i = true →
      ((viewsPhase s lastDup cur views b).2.1)[j]? = views[j]? := by
  intro i j hij hfail
  have hmt : ¬ (maxThreadsFor s views.length > 1) := by
    have : maxThreadsFor s views.length ≤ 1 := by
      simp only [maxThreadsFor, hpar]
      exact Nat.min_le_right _ _
    omega
  have hv : (viewsPhase s lastDup cur views b).2.1 = views
      ∨ (viewsPhase s lastDup cur views b).2.1
          = (seqLoop (fun i cur v => process i b cur v) cur 0 views).1 := by
    by_cases h1 : views.isEmpty
    · exact Or.inl (by simp [viewsPhase, h1])
    · by_cases h2 : (!s.deduplicate_blocks_in_dependent_materialized_views
          && (lastDup == some true)) = true
      · exact Or.inl (by simp [viewsPhase, h1, h2])
      · refine Or.inr ?_
        simp only [viewsPhase, h1, h2, Bool.false_eq_true, if_false]
        rw [if_neg hmt]
        split
        · rfl
        · rfl
  rcases hv with hv | hv
  · rw [hv]
  · rw [hv] at hfail ⊢
    exact seqLoop_frame _ views cur 0 i j hij hfail

/-- C10: with parallel view processing disabled, write stops iterating the
view list at the first view holding a captured exception: every view after a
failed view in record order is left exactly as it was (status and exception
unchanged). -/
theorem C10_sequential_short_circuit (st : St) (b : Block)
    (hpar : st.writer.settings.parallel_view_processing = false) :
    ∀ i j, i < j →
      failedAt ((write st b).2.1.writer.views) i = true →
      ((write st b).2.1.writer.views)[j]? = (st.writer.views)[j]? := by
  intro i j hij hfail
  have hw : (write st b).2.1.writer.views = st.writer.views
      ∨ (write st b).2.1.writer.views
          = (viewsPhase st.writer.settings st.writer.lastBlockIsDuplicate
              st.curThread st.writer.views b).2.1 := by
    simp only [write]
    split
    · exact Or.inl rfl
    · split
      · exact Or.inl rfl
      · exact Or.inr rfl
  rcases hw with hw | hw
  · rw [hw]
  · rw [hw] at hfail ⊢
    exact viewsPhase_frame st.writer.settings st.writer.lastBlockIsDuplicate
      st.curThread st.writer.views b hpar i j hij hfail

/-- A view whose downstream write throws. -/
def v10 : ViewInfo := { mkView "A" with writeErr := fun _ => some excBoom }

/-- Writer state for the short-circuit witness. -/
def st10 : St := { writer := mkWriter [v10, mkView "B"], curThread := 3 }

theorem C10_witness :
    ((write st10 []).2.1.writer.views)[1]? = (st10.writer.views)[1]? :=
  C10_sequential_short_circuit st10 [] rfl 0 1 (by decide) (by decide)

/-! ## C7: the first captured exception in record order is rethrown -/

/-- Every DB exception captured into the record carries the record display
name at the end of its message. -/
def MentionsName (v : ViewInfo) : Prop :=
  ∀ e, v.exception = some e → e.kind = ExcKind.db → ∃ pre, e.msg = pre ++ v.name

theorem mentionsName_of_clean (v : ViewInfo) (h : v.exception = none) :
    MentionsName v := by
  intro e he
  rw [h] at he
  cases he

theorem addViewMessage_db (stage nm : String) (e : Exc)
    (h : (addViewMessage stage nm e).kind = ExcKind.db) :
    ∃ pre, (addViewMessage stage nm e).msg = pre ++ nm := by
  cases hk : e.kind
  · exact ⟨e.msg ++ stage, by simp [addViewMessage, hk]⟩
  · rw [show addViewMessage stage nm e = e from by simp [addViewMessage, hk]] at h
    rw [hk] at h
    cases h

theorem process_mentions (i : Nat) (b : Block) (cur : Nat) (v : ViewInfo)
    (h : v.exception = none) : MentionsName (process i b cur v).1 := by
  intro e he hk
  cases hr : (runViewBlocks i v.writeErr (if v.hasQuery then v.pipeline b else [b])).1 with
  | none =>
    simp only [process, hr] at he
    rw [h] at he
    cases he
  | some e0 =>
    simp only [process, hr] at he
    have hname : (process i b cur v).1.name = v.name := by
      simp [process, hr]
    rw [hname]
    have he2 : e = addViewMessage " while pushing to view " v.name e0 :=
      (Option.some.inj he).symm
    subst he2
    exact addViewMessage_db _ _ _ hk

theorem seqLoop_mentions (b : Block) :
    ∀ (vs : List ViewInfo) (cur i : Nat),
      (∀ v ∈ vs, v.exception = none) →
      (∀ v1 ∈ (seqLoop (fun i cur v => process i b cur v) cur i vs).1, MentionsName v1)
      ∧ ((seqLoop (fun i cur v => process i b cur v) cur i vs).2.2.1 = false →
          ∀ v1 ∈ (seqLoop (fun i cur v => process i b cur v) cur i vs).1,
            v1.exception = none) := by
  intro vs
  induction vs with
  | nil =>
    intro cur i h
    exact ⟨by simp [seqLoop], by simp [seqLoop]⟩
  | cons v vs ih =>
    intro cur i h
    have hv : v.exception = none := h v (by simp)
    have htail : ∀ u ∈ vs, u.exception = none := fun u hu => h u (by simp [hu])
    have hpm : MentionsName (process i b cur v).1 := process_mentions i b cur v hv
    simp only [seqLoop]
    by_cases hp : (process i b cur v).1.exception.isSome = true
    · rw [if_pos hp]
      dsimp only
      constructor
      · intro v1 hm
        rcases List.mem_cons.mp hm with h1 | h1
        · subst h1; exact hpm
        · exact mentionsName_of_clean v1 (htail v1 h1)
      · intro hfalse
        simp at hfalse
    · rw [if_neg hp]
      dsimp only
      have ihh := ih (process i b cur v).2.1 (i + 1) htail
      have hnone : (process i b cur v).1.exception = none := by
        simpa using hp
      constructor
      · intro v1 hm
        rcases List.mem_cons.mp hm with h1 | h1
        · subst h1; exact hpm
        · exact ihh.1 v1 h1
      · intro hflag v1 hm
        rcases List.mem_cons.mp hm with h1 | h1
        · subst h1; exact hnone
        · exact ihh.2 hflag v1 h1

theorem parLoopAux_cnt_mono (f : Nat → Nat → ViewInfo → ViewInfo × Nat × List Effect) :
    ∀ (vs : List ViewInfo) (cur i cnt : Nat),
      cnt ≤ (parLoopAux f cur i cnt vs).2.2.1 := by
  intro vs
  induction vs with
  | nil => intro cur i cnt; exact Nat.le_refl cnt
  | cons v vs ih =>
    intro cur i cnt
    simp only [parLoopAux]
    by_cases hc : (cnt != 0) = true
    · rw [if_pos hc]
      exact ih cur (i + 1) cnt
    · rw [if_neg hc]
      dsimp only
      refine Nat.le_trans ?_ (ih (f i cur v).2.1 (i + 1) _)
      split
      · exact Nat.le_succ cnt
      · exact Nat.le_refl cnt

theorem parLoopAux_mentions (b : Block) :
    ∀ (vs : List ViewInfo) (cur i cnt : Nat),
      (∀ v ∈ vs, v.exception = none) →
      (∀ v1 ∈ (parLoopAux (fun i cur v => process i b cur v) cur i cnt vs).1,
          MentionsName v1)
      ∧ ((parLoopAux (fun i cur v => process i b cur v) cur i cnt vs).2.2.1 = 0 →
          ∀ v1 ∈ (parLoopAux (fun i cur v => process i b cur v) cur i cnt vs).1,
            v1.exception = none) := by
  intro vs
  induction vs with
  | nil =>
    intro cur i cnt h
    exact ⟨by simp [parLoopAux], by simp [parLoopAux]⟩
  | cons v vs ih =>
    intro cur i cnt h
    have hv : v.exception = none := h v (by simp)
    have htail : ∀ u ∈ vs, u.exception = none := fun u hu => h u (by simp [hu])
    simp only [parLoopAux]
    by_cases hc : (cnt != 0) = true
    · rw [if_pos hc]
      dsimp only
      have ihh := ih cur (i + 1) cnt htail
      constructor
      · intro v1 hm
        rcases List.mem_cons.mp hm with h1 | h1
        · subst h1; exact mentionsName_of_clean _ hv
        · exact ihh.1 v1 h1
      · intro hflag v1 hm
        rcases List.mem_cons.mp hm with h1 | h1
        · subst h1; exact hv
        · exact ihh.2 hflag v1 h1
    · rw [if_neg hc]
      dsimp only
      have hpm : MentionsName (process i b cur v).1 := process_mentions i b cur v hv
      by_cases hp : (process i b cur v).1.exception.isSome = true
      · rw [if_pos hp]
        have ihh := ih (process i b cur v).2.1 (i + 1) (cnt + 1) htail
        constructor
        · intro v1 hm
          rcases List.mem_cons.mp hm with h1 | h1
          · subst h1; exact hpm
          · exact ihh.1 v1 h1
        · intro hflag
          exfalso
          have hmono := parLoopAux_cnt_mono (fun i cur v => process i b cur v)
            vs (process i b cur v).2.1 (i + 1) (cnt + 1)
          omega
      · rw [if_neg hp]
        have ihh := ih (process i b cur v).2.1 (i + 1) cnt htail
        have hnone : (process i b cur v).1.exception = none := by
          simpa using hp
        constructor
        · intro v1 hm
          rcases List.mem_cons.mp hm with h1 | h1
          · subst h1; exact hpm
          · exact ihh.1 v1 h1
        · intro hflag v1 hm
          rcases List.mem_cons.mp hm with h1 | h1
          · subst h1; exact hnone
          · exact ihh.2 hflag v1 h1

theorem parLoop_mentions (b : Block) (vs : List ViewInfo) (cur i : Nat)
    (h : ∀ v ∈ vs, v.exception = none) :
    (∀ v1 ∈ (parLoop (fun i cur v => process i b cur v) cur i vs).1, MentionsName v1)
    ∧ ((parLoop (fun i cur v => process i b cur v) cur i vs).2.2.1 = false →
        ∀ v1 ∈ (parLoop (fun i cur v => process i b cur v) cur i vs).1,
          v1.exception = none) := by
  have haux := parLoopAux_mentions b vs cur i 0 h
  simp only [parLoop]
  refine ⟨haux.1, ?_⟩
  intro hflag
  exact haux.2 (by simpa using hflag)

theorem viewsPhase_first_exception (s : Settings) (lastDup : Option Bool)
    (cur : Nat) (views : List ViewInfo) (b : Block)
    (hclean : ∀ v ∈ views, v.exception = none)
    (v' : ViewInfo) (e : Exc)
    (hf : ((viewsPhase s lastDup cur views b).2.1).find?
        (fun v => v.exception.isSome) = some v')
    (he : v'.exception = some e) :
    (viewsPhase s lastDup cur views b).1 = Outcome.thrown e
    ∧ Effect.logViews (log_query_views s ((viewsPhase s lastDup cur views b).2.1))
        ∈ (viewsPhase s lastDup cur views b).2.2.2
    ∧ MentionsName v' := by
  by_cases h1 : views.isEmpty
  · exfalso
    have hvv : (viewsPhase s lastDup cur views b).2.1 = views := by
      simp [viewsPhase, h1]
    rw [hvv] at hf
    have hmem := List.mem_of_find?_eq_some hf
    have hcl := hclean v' hmem
    rw [hcl] at he
    cases he
  · by_cases h2 : (!s.deduplicate_blocks_in_dependent_materialized_views
        && (lastDup == some true)) = true
    · exfalso
      have hvv : (viewsPhase s lastDup cur views b).2.1 = views := by
        simp [viewsPhase, h1, h2]
      rw [hvv] at hf
      have hmem := List.mem_of_find?_eq_some hf
      have hcl := hclean v' hmem
      rw [hcl] at he
      cases he
    · set L := if maxThreadsFor s views.length > 1
        then parLoop (fun i cur v => process i b cur v) cur 0 views
        else seqLoop (fun i cur v => process i b cur v) cur 0 views with hLdef
      have hmen : (∀ v1 ∈ L.1, MentionsName v1)
          ∧ (L.2.2.1 = false → ∀ v1 ∈ L.1, v1.exception = none) := by
        rw [hLdef]
        split
        · exact parLoop_mentions b views cur 0 hclean
        · exact seqLoop_mentions b views cur 0 hclean
      have hL1 : (viewsPhase s lastDup cur views b).2.1 = L.1 := by
        simp only [viewsPhase]
        rw [if_neg h1, if_neg h2, ← hLdef]
        split
        · rfl
        · rfl
      have hf' : L.1.find? (fun v => v.exception.isSome) = some v' := by
        rw [← hL1]
        exact hf
      have hmem' : v' ∈ L.1 := List.mem_of_find?_eq_some hf'
      have hfl : L.2.2.1 = true := by
        by_contra hflag
        have hfalse : L.2.2.1 = false := by
          cases hb : L.2.2.1
          · rfl
          · exact absurd hb hflag
        have hcl := hmen.2 hfalse v' hmem'
        rw [hcl] at he
        cases he
      have hfull : viewsPhase s lastDup cur views b
          = ((check_exceptions_in_views s L.1).1, L.1, L.2.1,
              L.2.2.2 ++ (check_exceptions_in_views s L.1).2) := by
        simp only [viewsPhase]
        rw [if_neg h1, if_neg h2, ← hLdef, if_pos hfl]
      have hch : check_exceptions_in_views s L.1
          = (Outcome.thrown e, [Effect.logViews (log_query_views s L.1)]) := by
        simp only [check_exceptions_in_views, hf', he]
      refine ⟨?_, ?_, hmen.1 v' hmem'⟩
      · rw [hfull]
        dsimp only
        rw [hch]
      · rw [hfull]
        dsimp only
        rw [hch]
        simp

/-- A failure thrown by a downstream sink that is not a DB Exception: the
catch-all path of process captures it without annotation. -/
def excOther : Exc := { kind := ExcKind.other, msg := "foreign" }

/-- A view whose downstream write throws a non-DB object. -/
def v7o : ViewInfo := { mkView "A" with writeErr := fun _ => some excOther }

/-- Writer state for the C7 counterexample: the view failing with a foreign
exception first, a clean view after it. -/
def st7c : St := { writer := mkWriter [v7o, mkView "B"], curThread := 3 }

/-- C7 counterexample: when the first failing view's downstream write throws
an object that is not a DB Exception, the catch-all path stores it
unannotated and write rethrows it with its message untouched: the rethrown
message does not contain the view display name, contradicting the
unconditional message part of the claim. -/
theorem C7_counterexample :
    (write st7c []).1 = Outcome.thrown excOther
    ∧ ∀ pre post : String, excOther.msg ≠ pre ++ "A" ++ post := by
  constructor
  · decide
  · intro pre post h
    have hd : excOther.msg.data = (pre.data ++ "A".data) ++ post.data := by
      rw [h]
      rfl
    have hmem : 'A' ∈ excOther.msg.data := by
      rw [hd]
      exact List.mem_append_left _ (List.mem_append_right _ (by decide))
    exact absurd hmem (by decide)

/-- C7 amended: when per-view errors were collected during a batch, write
logs the view-set telemetry and rethrows exactly the first captured exception
in view record order; the rethrown message contains the failing view display
name when the captured failure is a DB exception (the annotated kind), while
objects caught by the catch-all path are rethrown unannotated. -/
theorem C7_first_exception_rethrown (st : St) (b : Block)
    (hclean : ∀ v ∈ st.writer.views, v.exception = none)
    (e : Exc) (nm : String)
    (hfind : (((write st b).2.1.writer.views).find?
        (fun v => v.exception.isSome)).bind (fun v => v.exception) = some e)
    (hname : (((write st b).2.1.writer.views).find?
        (fun v => v.exception.isSome)).map (fun v => v.name) = some nm) :
    (write st b).1 = Outcome.thrown e
    ∧ Effect.logViews
        (log_query_views st.writer.settings ((write st b).2.1.writer.views))
        ∈ (write st b).2.2
    ∧ (e.kind = ExcKind.db → ∃ pre, e.msg = pre ++ nm) := by
  cases hf : ((write st b).2.1.writer.views).find? (fun v => v.exception.isSome) with
  | none =>
    rw [hf] at hfind
    simp at hfind
  | some v' =>
    rw [hf] at hfind hname
    simp only [Option.some_bind, Option.map_some] at hfind hname
    have hcontra : (write st b).2.1.writer.views = st.writer.views → False := by
      intro hvv
      rw [hvv] at hf
      have hmem := List.mem_of_find?_eq_some hf
      have hcl := hclean v' hmem
      rw [hcl] at hfind
      cases hfind
    by_cases hval : validateArraySizes b = true
    · have hcond : ¬((!validateArraySizes b) = true) := by simp [hval]
      cases hfr : (writeFront st.writer b).1 with
      | some e0 =>
        exfalso
        apply hcontra
        simp only [write]
        rw [if_neg hcond, hfr]
      | none =>
        have hw0 : write st b
            = ((viewsPhase st.writer.settings st.writer.lastBlockIsDuplicate
                  st.curThread st.writer.views b).1,
                { writer := { st.writer with views := (viewsPhase st.writer.settings
                      st.writer.lastBlockIsDuplicate st.curThread
                      st.writer.views b).2.1 },
                  curThread := (viewsPhase st.writer.settings
                    st.writer.lastBlockIsDuplicate st.curThread
                    st.writer.views b).2.2.1 },
                (writeFront st.writer b).2
                  ++ (viewsPhase st.writer.settings st.writer.lastBlockIsDuplicate
                        st.curThread st.writer.views b).2.2.2) := by
          simp only [write]
          rw [if_neg hcond, hfr]
        have hvv : (write st b).2.1.writer.views
            = (viewsPhase st.writer.settings st.writer.lastBlockIsDuplicate
                st.curThread st.writer.views b).2.1 := by
          rw [hw0]
        have hf' : ((viewsPhase st.writer.settings st.writer.lastBlockIsDuplicate
            st.curThread st.writer.views b).2.1).find?
              (fun v => v.exception.isSome) = some v' := by
          rw [← hvv]
          exact hf
        have hph := viewsPhase_first_exception st.writer.settings
          st.writer.lastBlockIsDuplicate st.curThread st.writer.views b
          hclean v' e hf' hfind
        refine ⟨?_, ?_, ?_⟩
        · rw [hw0]
          exact hph.1
        · rw [hvv, hw0]
          exact List.mem_append_right _ hph.2.1
        · intro hk
          obtain ⟨pre, hp⟩ := hph.2.2 e hfind hk
          have hname2 : v'.name = nm := by simpa using hname
          exact ⟨pre, by rw [hp, hname2]⟩
    · exfalso
      apply hcontra
      have hvf : validateArraySizes b = false := by
        cases hb : validateArraySizes b
        · rfl
        · exact absurd hb hval
      have hcond : ((!validateArraySizes b) = true) := by simp [hvf]
      simp only [write]
      rw [if_pos hcond]

/-- A view whose downstream write throws a DB exception. -/
def v7 : ViewInfo := { mkView "A" with writeErr := fun _ => some excBoom }

/-- Writer state for the first-exception witness. -/
def st7 : St := { writer := mkWriter [v7, mkView "B"], curThread := 3 }

/-- The exception st7 rethrows: the captured failure annotated with the view
display name. -/
def exc7 : Exc := { kind := ExcKind.db, msg := "boom while pushing to view A" }

theorem C7_witness :
    (write st7 []).1 = Outcome.thrown exc7
    ∧ Effect.logViews
        (log_query_views st7.writer.settings ((write st7 []).2.1.writer.views))
        ∈ (write st7 []).2.2
    ∧ ∃ pre, exc7.msg = pre ++ "A" :=
  have h := C7_first_exception_rethrown st7 [] (by decide) exc7 "A"
    (by decide) (by decide)
  ⟨h.1, h.2.1, h.2.2 rfl⟩

end PushingToViews
